import Mathlib

/- Shallow embedding of the propane migration engine
   (src/propane_core/src/migrations.rs) together with the parts of the
   abstract database model and of the error type that the engine uses.
   Components that live outside the migrations source file (the abstract
   database model, the differ, type resolution, the error enumeration)
   are modelled from the specification, as noted on each definition. -/

/- Kind of an input output failure. The NotFound kind is distinguished
   because the engine inspects it. -/
inductive IOErr
  | notFound
  | other (msg : String)
deriving DecidableEq

def IOErr.isNotFound : IOErr → Bool
  | .notFound => true
  | .other _ => false

/- Modelled from the spec: the closed error set surfaced across the
   boundary (section 6), plus one variant for a sql value conversion
   mismatch used by from_row. -/
inductive Error
  | Io (e : IOErr)
  | Serde
  | MigrationError (msg : String)
  | InvalidMigration (msg : String)
  | UnknownType (key : String)
  | NoSuchObject
  | BoundsError
  | SqlValueError
deriving DecidableEq

def Error.isMigrationErr : Error → Bool
  | .MigrationError _ => true
  | _ => false

/- Modelled from the spec: the closed set of column types (section 3). -/
inductive SqlType
  | SmallInt
  | BigInt
  | Real
  | Text
  | Blob
  | Boolean
  | Timestamp
deriving DecidableEq

/- Modelled from the spec: sql values, used for column defaults and for
   row values returned by a query. -/
inductive SqlVal
  | Null
  | Bool (b : Bool)
  | Int (i : Int)
  | Text (s : String)
  | Blob (bytes : List Nat)
deriving DecidableEq

inductive DeferredSqlType
  | Known (t : SqlType)
  | Deferred (key : String)
deriving DecidableEq

/- Modelled from the spec: a column of the abstract schema (section 3). -/
structure AColumn where
  name : String
  sqltype : DeferredSqlType
  nullable : Bool
  pk : Bool
  auto : Bool
  default : Option SqlVal
deriving DecidableEq

/- Mirrors the AColumn constructor as it is called by migrations_table. -/
def AColumn.new (name : String) (sqltype : DeferredSqlType) (nullable : Bool) (pk : Bool) (d : Option SqlVal) : AColumn :=
  { name := name, sqltype := sqltype, nullable := nullable, pk := pk, auto := false, default := d }

structure ATable where
  name : String
  columns : List AColumn
deriving DecidableEq

def ATable.new (name : String) : ATable :=
  { name := name, columns := [] }

def ATable.add_column (t : ATable) (c : AColumn) : ATable :=
  { t with columns := t.columns ++ [c] }

/- Modelled from the spec: an ordered mapping from table name to table
   (section 3). -/
abbrev ADB := List ATable

def ADB.new : ADB := []

def ADB.getTable (db : ADB) (name : String) : Option ATable :=
  db.find? (fun t => t.name == name)

def ADB.replace_table (db : ADB) (t : ATable) : ADB :=
  if db.any (fun u => u.name == t.name) then
    db.map (fun u => if u.name == t.name then t else u)
  else
    db ++ [t]

/- Modelled from the spec: a deferred key names the primary key type of
   another table; scenario S6 shows keys of the form Table.pk. -/
def ADB.lookupType (db : ADB) (key : String) : Option SqlType :=
  db.findSome? (fun t =>
    if key == t.name ++ ".pk" then
      match t.columns.find? (fun c => c.pk) with
      | some c =>
        match c.sqltype with
        | .Known ty => some ty
        | .Deferred _ => none
      | none => none
    else none)

def AColumn.resolve (db : ADB) (c : AColumn) : Except Error AColumn :=
  match c.sqltype with
  | .Known _ => .ok c
  | .Deferred key =>
    match db.lookupType key with
    | some ty => .ok { c with sqltype := .Known ty }
    | none => .error (.UnknownType key)

def resolveCols (db : ADB) : List AColumn → Except Error (List AColumn)
  | [] => .ok []
  | c :: rest =>
    match AColumn.resolve db c with
    | .ok c2 =>
      match resolveCols db rest with
      | .ok cs => .ok (c2 :: cs)
      | .error e => .error e
    | .error e => .error e

def resolveTables (db : ADB) : List ATable → Except Error (List ATable)
  | [] => .ok []
  | t :: rest =>
    match resolveCols db t.columns with
    | .ok cs =>
      match resolveTables db rest with
      | .ok ts => .ok ({ t with columns := cs } :: ts)
      | .error e => .error e
    | .error e => .error e

/- Modelled from the spec: a single pass that rewrites every deferred
   column type to a known one or fails with UnknownType (section 4.1). -/
def ADB.resolve_types (db : ADB) : Except Error ADB :=
  resolveTables db db

/- Modelled from the spec: schema operations (section 3). -/
inductive Operation
  | AddTable (t : ATable)
  | RemoveTable (name : String)
  | AddColumn (table : String) (c : AColumn)
  | RemoveColumn (table : String) (col : String)
  | ChangeColumn (table : String) (old : AColumn) (new : AColumn)
deriving DecidableEq

def diffCols (tname : String) (fromT toT : ATable) : List Operation :=
  ((toT.columns.filter (fun c => !(fromT.columns.any (fun c0 => c0.name == c.name)))).map
    (fun c => Operation.AddColumn tname c))
  ++ ((fromT.columns.filter (fun c => !(toT.columns.any (fun c0 => c0.name == c.name)))).map
    (fun c => Operation.RemoveColumn tname c.name))
  ++ (toT.columns.filterMap (fun c =>
      match fromT.columns.find? (fun c0 => c0.name == c.name) with
      | some old => if old == c then none else some (Operation.ChangeColumn tname old c)
      | none => none))

/- Modelled from the spec: the structural differ (section 4.2): added
   tables first in destination order, then removed tables, then column
   level changes for tables present on both sides. -/
def diff (fromDb toDb : ADB) : List Operation :=
  ((toDb.filter (fun t => (fromDb.getTable t.name).isNone)).map (fun t => Operation.AddTable t))
  ++ ((fromDb.filter (fun t => (toDb.getTable t.name).isNone)).map (fun t => Operation.RemoveTable t.name))
  ++ (toDb.map (fun t =>
      match fromDb.getTable t.name with
      | some ft => diffCols t.name ft t
      | none => [])).flatten

/- Mirrors the migrations_table function of the source. -/
def migrations_table : ATable :=
  (ATable.new ("propane_migrations")).add_column
    (AColumn.new ("name") (DeferredSqlType.Known SqlType.Text) false true none)

/- Boundary interface of a sql backend (spec section 6): a name and a
   renderer from a schema and an operation list to a sql script. -/
structure Backend where
  get_name : String
  create_migration_sql : ADB → List Operation → String

abbrev FPath := List String

/- Mirrors MigrationInfo. -/
structure MigrationInfo where
  from_name : Option String
deriving DecidableEq

/- Mirrors MigrationsState. -/
structure MigrationsState where
  latest : Option String
deriving DecidableEq

def MigrationsState.new : MigrationsState :=
  { latest := none }

/- File contents with json serialization abstracted: a file holds either
   a serialized table, info or state value, or plain text. Reading a file
   at the wrong type is a serde error. -/
inductive FileData
  | table (t : ATable)
  | info (i : MigrationInfo)
  | state (st : MigrationsState)
  | raw (s : String)
deriving DecidableEq

def FileData.asString : FileData → String
  | .raw s => s
  | .table _ => ""
  | .info _ => ""
  | .state _ => ""

def parseTable : FileData → Except Error ATable
  | .table t => .ok t
  | _ => .error .Serde

def parseInfo : FileData → Except Error MigrationInfo
  | .info i => .ok i
  | _ => .error .Serde

def parseState : FileData → Except Error MigrationsState
  | .state st => .ok st
  | _ => .error .Serde

/- Observable effects of a run: directory creation attempts, successful
   file writes, sql execution attempts and bookkeeping insert attempts. -/
inductive Event
  | ensuredDir (p : FPath)
  | wroteFile (p : FPath) (d : FileData)
  | executedSql (sql : String)
  | insertedRow (table : String) (vals : List SqlVal)
deriving DecidableEq

/- State and trace monad over an abstract filesystem state: a computation
   yields a result or an error, the state as of the end of the run, and
   the list of effects in order. -/
def M (σ : Type) (α : Type) : Type :=
  σ → (Except Error α) × σ × List Event

def M.pure (a : α) : M σ α := fun s => (.ok a, s, [])

def M.bind (x : M σ α) (f : α → M σ β) : M σ β := fun s =>
  match x s with
  | (.ok a, s1, t1) =>
    match f a s1 with
    | (r, s2, t2) => (r, s2, t1 ++ t2)
  | (.error e, s1, t1) => (.error e, s1, t1)

def ofExcept (r : Except Error α) : M σ α := fun s => (r, s, [])

def Mthrow (e : Error) : M σ α := fun s => (.error e, s, [])

def Mcatch (x : M σ α) (d : α) : M σ α := fun s =>
  match x s with
  | (.ok a, s1, t) => (.ok a, s1, t)
  | (.error _, s1, t) => (.ok d, s1, t)

/- Mirrors the Filesystem trait: directory creation, listing, file write
   and file read, over an abstract filesystem state. -/
structure Filesystem (σ : Type) where
  ensure_dir : σ → FPath → Except IOErr σ
  list_dir : σ → FPath → Except IOErr (List FPath)
  write : σ → FPath → FileData → Except IOErr σ
  read : σ → FPath → Except IOErr FileData

def fsEnsureDir (F : Filesystem σ) (p : FPath) : M σ Unit := fun s =>
  match F.ensure_dir s p with
  | .ok s1 => (.ok (), s1, [.ensuredDir p])
  | .error e => (.error (.Io e), s, [.ensuredDir p])

def fsListDir (F : Filesystem σ) (p : FPath) : M σ (List FPath) := fun s =>
  match F.list_dir s p with
  | .ok l => (.ok l, s, [])
  | .error e => (.error (.Io e), s, [])

def fsRead (F : Filesystem σ) (p : FPath) : M σ FileData := fun s =>
  match F.read s p with
  | .ok d => (.ok d, s, [])
  | .error e => (.error (.Io e), s, [])

def fsWrite (F : Filesystem σ) (p : FPath) (d : FileData) : M σ Unit := fun s =>
  match F.write s p d with
  | .ok s1 => (.ok (), s1, [.wroteFile p d])
  | .error e => (.error (.Io e), s, [])

structure Column where
  name : String
  ty : SqlType
deriving DecidableEq

abbrev Row := List SqlVal

/- Boundary interface of a live connection (spec section 6). Responses
   are supplied by the connection value; effects are recorded in the
   trace. -/
structure Conn where
  backend_name : String
  execute_result : String → Except Error Unit
  query_result : String → List Column → Except Error (List Row)
  insert_result : String → List SqlVal → Except Error Unit

def connExecute (C : Conn) (sql : String) : M σ Unit := fun s =>
  (C.execute_result sql, s, [.executedSql sql])

def connQuery (C : Conn) (table : String) (cols : List Column) : M σ (List Row) := fun s =>
  (C.query_result table cols, s, [])

def connInsertOrReplace (C : Conn) (table : String) (_cols : List Column) (vals : List SqlVal) : M σ Unit := fun s =>
  (C.insert_result table vals, s, [.insertedRow table vals])

/- Mirrors PropaneMigration. -/
structure PropaneMigration where
  name : String
deriving DecidableEq

def PropaneMigration.TABLE : String := "propane_migrations"

def PropaneMigration.COLUMNS : List Column :=
  [{ name := "name", ty := SqlType.Text }]

/- Modelled from the spec: FromSql for String accepts a text value. -/
def fromSqlString : SqlVal → Except Error String
  | .Text s => .ok s
  | _ => .error .SqlValueError

/- Mirrors PropaneMigration::from_row. -/
def PropaneMigration.from_row (row : Row) : Except Error PropaneMigration :=
  if row.length ≠ 1 then .error .BoundsError
  else
    match row with
    | v :: _ =>
      match fromSqlString v with
      | .ok s => .ok { name := s }
      | .error e => .error e
    | [] => .error .BoundsError

/- Mirrors the collect over from_row in get_last_applied_migration: the
   first row that fails to convert aborts with its error. -/
def fromRows : List Row → Except Error (List PropaneMigration)
  | [] => .ok []
  | r :: rest =>
    match PropaneMigration.from_row r with
    | .ok p =>
      match fromRows rest with
      | .ok ps => .ok (p :: ps)
      | .error e => .error e
    | .error e => .error e

/- Mirrors str::ends_with. -/
def strEndsWith (s suffix : String) : Bool :=
  List.isSuffixOf suffix.toList s.toList

/- Mirrors Migration: a node identified by its root directory. The shared
   filesystem handle of the source is passed explicitly to every
   operation. -/
structure Migration where
  root : FPath
deriving DecidableEq

def Migration.get_name (m : Migration) : String :=
  (m.root.getLast?).getD ""

def Migration.ensure_dir (F : Filesystem σ) (m : Migration) : M σ Unit :=
  fsEnsureDir F m.root

def Migration.write_contents (F : Filesystem σ) (m : Migration) (fname : String) (contents : FileData) : M σ Unit :=
  M.bind (m.ensure_dir F) (fun _ => fsWrite F (m.root ++ [fname]) contents)

def Migration.write_sql (F : Filesystem σ) (m : Migration) (name : String) (sql : String) : M σ Unit :=
  m.write_contents F (name ++ ".sql") (.raw sql)

def Migration.write_info (F : Filesystem σ) (m : Migration) (i : MigrationInfo) : M σ Unit :=
  m.write_contents F ("info.json") (.info i)

def Migration.write_table (F : Filesystem σ) (m : Migration) (t : ATable) : M σ Unit :=
  m.write_contents F (t.name ++ ".table") (.table t)

def Migration.sql_path (m : Migration) (backend direction : String) : FPath :=
  m.root ++ [backend ++ "_" ++ direction ++ ".sql"]

def Migration.read_sql (F : Filesystem σ) (m : Migration) (backend direction : String) : M σ String :=
  M.bind (fsRead F (m.sql_path backend direction)) (fun d => M.pure d.asString)

def Migration.up_sql (F : Filesystem σ) (m : Migration) (backend : String) : M σ String :=
  m.read_sql F backend ("up")

def Migration.down_sql (F : Filesystem σ) (m : Migration) (backend : String) : M σ String :=
  m.read_sql F backend ("down")

/- Mirrors the table loading loop of Migration::get_db: entries whose
   file name does not end in .table are skipped, the rest are parsed and
   inserted with replace_table. -/
def loadTables (F : Filesystem σ) : List FPath → ADB → M σ ADB
  | [], db => M.pure db
  | entry :: rest, db =>
    match entry.getLast? with
    | none => loadTables F rest db
    | some fname =>
      if strEndsWith fname (".table") then
        M.bind (fsRead F entry) (fun d =>
        M.bind (ofExcept (parseTable d)) (fun t =>
        loadTables F rest (db.replace_table t)))
      else loadTables F rest db

/- Mirrors Migration::get_db. -/
def Migration.get_db (F : Filesystem σ) (m : Migration) : M σ ADB :=
  M.bind (m.ensure_dir F) (fun _ =>
  M.bind (fsListDir F m.root) (fun entries =>
  M.bind (loadTables F entries ADB.new) (fun db =>
  ofExcept db.resolve_types)))

/- Mirrors Migration::get_from_migration. -/
def Migration.get_from_migration (F : Filesystem σ) (m : Migration) : M σ (Option Migration) :=
  M.bind (fsRead F (m.root ++ ["info.json"])) (fun d =>
  M.bind (ofExcept (parseInfo d)) (fun i =>
  match i.from_name with
  | none => M.pure none
  | some name =>
    if m.root.isEmpty then
      Mthrow (.MigrationError ("migration path must have a parent"))
    else
      M.pure (some { root := m.root.dropLast ++ [name] })))

/- Mirrors Migration::apply: read the forward sql, execute it, then
   record the bookkeeping row. -/
def Migration.apply (F : Filesystem σ) (C : Conn) (m : Migration) : M σ Unit :=
  M.bind (m.up_sql F C.backend_name) (fun sql =>
  M.bind (connExecute C sql) (fun _ =>
  connInsertOrReplace C PropaneMigration.TABLE PropaneMigration.COLUMNS [SqlVal.Text m.get_name]))

/- Mirrors Migrations: a chain rooted at a directory. -/
structure Migrations where
  root : FPath
deriving DecidableEq

def Migrations.get_migration (ms : Migrations) (name : String) : Migration :=
  { root := ms.root ++ [name] }

def Migrations.get_current (ms : Migrations) : Migration :=
  ms.get_migration ("current")

/- Mirrors Migrations::get_state. -/
def Migrations.get_state (F : Filesystem σ) (ms : Migrations) : M σ MigrationsState := fun s =>
  match F.read s (ms.root ++ ["state.json"]) with
  | .ok d => (parseState d, s, [])
  | .error e =>
    if e.isNotFound then (.ok MigrationsState.new, s, [])
    else (.error (.Io e), s, [])

/- Mirrors Migrations::save_state. -/
def Migrations.save_state (F : Filesystem σ) (ms : Migrations) (st : MigrationsState) : M σ Unit :=
  fsWrite F (ms.root ++ ["state.json"]) (.state st)

/- Mirrors Migrations::get_latest: every failure of get_state is
   discarded and yields none. -/
def Migrations.get_latest (F : Filesystem σ) (ms : Migrations) : M σ (Option Migration) :=
  Mcatch
    (M.bind (ms.get_state F) (fun st =>
      M.pure (match st.latest with
        | none => none
        | some name => some (ms.get_migration name))))
    none

/- Mirrors Migrations::create_migration. -/
def Migrations.create_migration (F : Filesystem σ) (ms : Migrations) (backend : Backend) (name : String) (fromM : Option Migration) : M σ (Option Migration) :=
  let from_name := fromM.map (fun m0 => m0.get_name)
  let from_none := fromM.isNone
  M.bind (match fromM with
    | none => M.pure ADB.new
    | some m0 => m0.get_db F) (fun from_db =>
  M.bind ((ms.get_current).get_db F) (fun to_db =>
  M.bind (M.pure (diff from_db to_db)) (fun ops0 =>
  if ops0.isEmpty then
    M.pure none
  else
    let ops := if from_none then ops0 ++ [Operation.AddTable migrations_table] else ops0
    let sql := backend.create_migration_sql from_db ops
    let m : Migration := ms.get_migration name
    M.bind (m.write_sql F (backend.get_name ++ "_up") sql) (fun _ =>
    let sql2 := backend.create_migration_sql from_db (diff to_db from_db)
    M.bind (m.write_sql F (backend.get_name ++ "_down") sql2) (fun _ =>
    M.bind (m.write_info F { from_name := from_name }) (fun _ =>
    M.bind (ms.get_state F) (fun st =>
    if st.latest.isNone || st.latest == from_name then
      M.bind (ms.save_state F { st with latest := some m.get_name }) (fun _ =>
      M.pure (some m))
    else
      M.pure (some m))))))))

/- Mirrors the loop of Migrations::get_all_migrations. The fuel argument
   bounds the number of backward steps; none marks a walk that did not
   finish within the bound, which corresponds to a diverging loop in the
   source. -/
def chainAllLoop (F : Filesystem σ) : Nat → Option Migration → List Migration → M σ (Option (List Migration))
  | _, none, accum => M.pure (some accum.reverse)
  | 0, some _, _ => M.pure none
  | fuel+1, some m, accum =>
    M.bind (m.get_from_migration F) (fun next =>
      chainAllLoop F fuel next (accum ++ [m]))

/- Mirrors Migrations::get_all_migrations. -/
def Migrations.get_all_migrations (F : Filesystem σ) (fuel : Nat) (ms : Migrations) : M σ (Option (List Migration)) :=
  M.bind (ms.get_latest F) (fun last =>
    chainAllLoop F fuel last [])

/- Mirrors the loop of Migrations::get_migrations_since. Equality of
   migrations is by name, as in the source. -/
def chainSinceLoop (F : Filesystem σ) (since : Migration) : Nat → Option Migration → List Migration → M σ (Option (List Migration))
  | _, none, _ => Mthrow (.MigrationError ("Migration not in chain"))
  | 0, some _, _ => M.pure none
  | fuel+1, some m, accum =>
    if m.get_name == since.get_name then
      M.pure (some accum.reverse)
    else
      M.bind (m.get_from_migration F) (fun next =>
        chainSinceLoop F since fuel next (accum ++ [m]))

/- Mirrors Migrations::get_migrations_since. -/
def Migrations.get_migrations_since (F : Filesystem σ) (since : Migration) (fuel : Nat) (ms : Migrations) : M σ (Option (List Migration)) :=
  M.bind (ms.get_latest F) (fun last =>
    chainSinceLoop F since fuel last [])

/- Mirrors the loop of Migrations::get_last_applied_migration: the walk
   returns the first node from the tip whose name is absent from the
   applied rows, and none once the walk falls off the root. -/
def lastAppliedLoop (F : Filesystem σ) (applied : List PropaneMigration) : Nat → Option Migration → M σ (Option (Option Migration))
  | _, none => M.pure (some none)
  | 0, some _ => M.pure none
  | fuel+1, some m =>
    if applied.contains { name := m.get_name } then
      M.bind (m.get_from_migration F) (fun next =>
        lastAppliedLoop F applied fuel next)
    else
      M.pure (some (some m))

/- Mirrors Migrations::get_last_applied_migration. -/
def Migrations.get_last_applied_migration (F : Filesystem σ) (C : Conn) (fuel : Nat) (ms : Migrations) : M σ (Option (Option Migration)) :=
  M.bind (connQuery C PropaneMigration.TABLE PropaneMigration.COLUMNS) (fun rows =>
  M.bind (ofExcept (fromRows rows)) (fun applied =>
  M.bind (ms.get_latest F) (fun last =>
  lastAppliedLoop F applied fuel last)))

/- Mirrors Migrations::get_unapplied_migrations, including the branch
   that swallows every error of get_last_applied_migration. -/
def Migrations.get_unapplied_migrations (F : Filesystem σ) (C : Conn) (fuel : Nat) (ms : Migrations) : M σ (Option (List Migration)) := fun s =>
  match ms.get_last_applied_migration F C fuel s with
  | (.ok (some none), s1, t1) =>
    match ms.get_all_migrations F fuel s1 with
    | (r, s2, t2) => (r, s2, t1 ++ t2)
  | (.ok (some (some m)), s1, t1) =>
    match ms.get_migrations_since F m fuel s1 with
    | (r, s2, t2) => (r, s2, t1 ++ t2)
  | (.ok none, s1, t1) => (.ok none, s1, t1)
  | (.error _, s1, t1) =>
    match ms.get_all_migrations F fuel s1 with
    | (r, s2, t2) => (r, s2, t1 ++ t2)

/- In memory filesystem instance, the test double of spec section 4.4. -/
structure MemFs where
  dirs : List FPath
  files : List (FPath × FileData)
deriving DecidableEq

def MemFs.lookup (fs : MemFs) (p : FPath) : Option FileData :=
  (fs.files.find? (fun e => e.1 == p)).map (fun e => e.2)

def memEnsureState (s : MemFs) (p : FPath) : MemFs :=
  { s with dirs := if s.dirs.contains p then s.dirs else p :: s.dirs }

def memWriteState (s : MemFs) (p : FPath) (d : FileData) : MemFs :=
  { s with files := (p, d) :: s.files.filter (fun e => !(e.1 == p)) }

def memFilesystem : Filesystem MemFs where
  ensure_dir s p := .ok (memEnsureState s p)
  list_dir s p :=
    if s.dirs.contains p then
      .ok (((s.files.map (fun e => e.1)) ++ s.dirs).filter (fun q => !q.isEmpty && q.dropLast == p))
    else .error .notFound
  write s p d := .ok (memWriteState s p d)
  read s p :=
    match s.lookup p with
    | some d => .ok d
    | none => .error .notFound

/- Concrete fixtures used to exercise the embedding on explicit inputs. -/

def opTag : Operation → String
  | .AddTable t => "+" ++ t.name
  | .RemoveTable n => "-" ++ n
  | .AddColumn tb c => "+c" ++ tb ++ "." ++ c.name
  | .RemoveColumn tb c => "-c" ++ tb ++ "." ++ c
  | .ChangeColumn tb _ c2 => "~c" ++ tb ++ "." ++ c2.name

def namesOf (db : ADB) : String :=
  db.foldl (fun acc t => acc ++ "," ++ t.name) ""

def opsTag (ops : List Operation) : String :=
  ops.foldl (fun acc o => acc ++ ";" ++ opTag o) ""

/- A concrete backend whose rendered script records both the schema
   argument and the operation list, so that distinct arguments are
   observable in the output. -/
def mockBackend : Backend :=
  { get_name := "sqlite", create_migration_sql := fun db ops => namesOf db ++ "|" ++ opsTag ops }

def tblA : ATable :=
  { name := "t1", columns := [AColumn.new ("id") (.Known .BigInt) false true none] }

def tblB : ATable :=
  { name := "t2", columns := [AColumn.new ("id") (.Known .BigInt) false true none] }

def tblBlog : ATable :=
  { name := "Blog", columns := [AColumn.new ("id") (.Known .BigInt) false true none] }

def tblPost : ATable :=
  { name := "Post",
    columns := [AColumn.new ("id") (.Known .BigInt) false true none,
                AColumn.new ("blog_id") (.Deferred "Blog.pk") false false none] }

def chainRoot : Migrations := { root := ["r"] }

def connOk : Conn :=
  { backend_name := "sqlite",
    execute_result := fun _ => .ok (),
    query_result := fun _ _ => .ok [],
    insert_result := fun _ _ => .ok () }

def connRowsM1 : Conn :=
  { connOk with query_result := fun _ _ => .ok [[SqlVal.Text "m1"]] }

def connExecFail : Conn :=
  { connOk with execute_result := fun _ => .error (.InvalidMigration "bad") }

def connQueryFail : Conn :=
  { connOk with query_result := fun _ _ => .error (.Io (.other "no table")) }

def memNoFiles : MemFs := { dirs := [], files := [] }

def memStateM1 : MemFs :=
  { dirs := [],
    files := [(["r", "state.json"], .state { latest := some "m1" }),
              (["r", "m1", "info.json"], .info { from_name := none })] }

def memTwoSnapshots : MemFs :=
  { dirs := [],
    files := [(["r", "state.json"], .state { latest := some "m0" }),
              (["r", "m0", "t1.table"], .table tblA),
              (["r", "current", "t2.table"], .table tblB)] }

def memCurrentB : MemFs :=
  { dirs := [], files := [(["r", "current", "t2.table"], .table tblB)] }

def memUpOnly : MemFs :=
  { dirs := [], files := [(["r", "m1", "sqlite_up.sql"], .raw "CREATE")] }

def memChain2 : MemFs :=
  { dirs := [],
    files := [(["r", "state.json"], .state { latest := some "m2" }),
              (["r", "m2", "info.json"], .info { from_name := some "m1" }),
              (["r", "m1", "info.json"], .info { from_name := none })] }

def memBlogPost : MemFs :=
  { dirs := [],
    files := [(["r", "current", "Blog.table"], .table tblBlog),
              (["r", "current", "Post.table"], .table tblPost)] }

/- A filesystem whose reads fail with an error other than NotFound. -/
def erroringFs : Filesystem Unit :=
  { ensure_dir := fun s _ => .ok s,
    list_dir := fun _ _ => .error (.other "disk"),
    write := fun s _ _ => .ok s,
    read := fun _ _ => .error (.other "disk") }

/- A computation is read only when it leaves the filesystem state
   untouched and records no effect. -/
def ReadOnly (x : M σ α) : Prop :=
  ∀ s, (x s).2 = (s, [])

/- A backward chain certificate: walking the predecessor links from the
   given starting node visits exactly the listed migrations, tip first,
   and ends at the root. -/
inductive BackChain (F : Filesystem σ) (s : σ) : Option Migration → List Migration → Prop
  | nil : BackChain F s none []
  | cons (m : Migration) (prev : Option Migration) (rest : List Migration)
      (hstep : m.get_from_migration F s = (.ok prev, s, []))
      (htail : BackChain F s prev rest) :
      BackChain F s (some m) (m :: rest)

/- The two outcomes of get_last_applied_migration on which
   get_unapplied_migrations falls back to the full chain. -/
def lastAppliedFailedOrNone : Except Error (Option (Option Migration)) → Bool
  | .error _ => true
  | .ok (some none) => true
  | _ => false

/- The Post table after type resolution against the Blog table. -/
def tblPostResolved : ATable :=
  { name := "Post",
    columns := [AColumn.new ("id") (.Known .BigInt) false true none,
                AColumn.new ("blog_id") (.Known .BigInt) false false none] }

theorem ro_pure (a : α) : ReadOnly (M.pure a : M σ α) := by
  intro s
  rfl

theorem ro_ofExcept (r : Except Error α) : ReadOnly (ofExcept r : M σ α) := by
  intro s
  rfl

theorem ro_Mthrow (e : Error) : ReadOnly (Mthrow e : M σ α) := by
  intro s
  rfl

theorem ro_bind {x : M σ α} {f : α → M σ β}
    (hx : ReadOnly x) (hf : ∀ a, ReadOnly (f a)) : ReadOnly (M.bind x f) := by
  intro s
  have h1 := hx s
  unfold M.bind
  rcases hx1 : x s with ⟨r1, s1, t1⟩
  rw [hx1] at h1
  dsimp at h1
  rw [Prod.mk.injEq] at h1
  obtain ⟨hs1, ht1⟩ := h1
  subst hs1
  subst ht1
  rcases r1 with e | a
  · rfl
  · have h2 := hf a s1
    rcases hx2 : f a s1 with ⟨r2, s2, t2⟩
    rw [hx2] at h2
    dsimp at h2
    rw [Prod.mk.injEq] at h2
    obtain ⟨hs2, ht2⟩ := h2
    subst hs2
    subst ht2
    dsimp only
    rw [hx2]
    simp

theorem ro_Mcatch {x : M σ α} (hx : ReadOnly x) (d : α) : ReadOnly (Mcatch x d) := by
  intro s
  unfold Mcatch
  rcases hx1 : x s with ⟨r1, s1, t1⟩
  have h1 := hx s
  rw [hx1] at h1
  simp at h1
  obtain ⟨hs1, ht1⟩ := h1
  subst hs1
  subst ht1
  rcases r1 with e | a <;> rfl

theorem ro_fsRead (F : Filesystem σ) (p : FPath) : ReadOnly (fsRead F p) := by
  intro s
  unfold fsRead
  rcases F.read s p with e | d <;> rfl

theorem ro_connQuery (C : Conn) (table : String) (cols : List Column) :
    ReadOnly (connQuery C table cols : M σ (List Row)) := by
  intro s
  rfl

theorem ro_get_state (F : Filesystem σ) (ms : Migrations) : ReadOnly (ms.get_state F) := by
  intro s
  unfold Migrations.get_state
  rcases F.read s (ms.root ++ ["state.json"]) with e | d
  · dsimp only
    split <;> rfl
  · rfl

theorem ro_get_latest (F : Filesystem σ) (ms : Migrations) : ReadOnly (ms.get_latest F) := by
  unfold Migrations.get_latest
  exact ro_Mcatch (ro_bind (ro_get_state F ms) (fun st => ro_pure _)) none

theorem ro_get_from_migration (F : Filesystem σ) (m : Migration) :
    ReadOnly (m.get_from_migration F) := by
  unfold Migration.get_from_migration
  refine ro_bind (ro_fsRead F _) (fun d => ro_bind (ro_ofExcept _) (fun i => ?_))
  rcases i.from_name with _ | name
  · exact ro_pure _
  · dsimp only
    split
    · exact ro_Mthrow _
    · exact ro_pure _

theorem ro_loadTables (F : Filesystem σ) (entries : List FPath) (db : ADB) :
    ReadOnly (loadTables F entries db) := by
  induction entries generalizing db with
  | nil => exact ro_pure _
  | cons entry rest ih =>
    unfold loadTables
    rcases entry.getLast? with _ | fname
    · exact ih db
    · dsimp only
      split
      · exact ro_bind (ro_fsRead F _) (fun d => ro_bind (ro_ofExcept _) (fun t => ih _))
      · exact ih db

theorem ro_lastAppliedLoop (F : Filesystem σ) (applied : List PropaneMigration)
    (fuel : Nat) (cur : Option Migration) :
    ReadOnly (lastAppliedLoop F applied fuel cur) := by
  induction fuel generalizing cur with
  | zero =>
    rcases cur with _ | m
    · exact ro_pure _
    · exact ro_pure _
  | succ n ih =>
    rcases cur with _ | m
    · exact ro_pure _
    · unfold lastAppliedLoop
      intro s
      split
      · exact (ro_bind (ro_get_from_migration F m) (fun next => ih next)) s
      · exact (ro_pure _) s

theorem ro_chainAllLoop (F : Filesystem σ) (fuel : Nat) (cur : Option Migration)
    (accum : List Migration) : ReadOnly (chainAllLoop F fuel cur accum) := by
  induction fuel generalizing cur accum with
  | zero =>
    rcases cur with _ | m
    · exact ro_pure _
    · exact ro_pure _
  | succ n ih =>
    rcases cur with _ | m
    · exact ro_pure _
    · unfold chainAllLoop
      exact ro_bind (ro_get_from_migration F m) (fun next => ih next _)

theorem ro_chainSinceLoop (F : Filesystem σ) (since : Migration) (fuel : Nat)
    (cur : Option Migration) (accum : List Migration) :
    ReadOnly (chainSinceLoop F since fuel cur accum) := by
  induction fuel generalizing cur accum with
  | zero =>
    rcases cur with _ | m
    · exact ro_Mthrow _
    · exact ro_pure _
  | succ n ih =>
    rcases cur with _ | m
    · exact ro_Mthrow _
    · unfold chainSinceLoop
      intro s
      split
      · exact (ro_pure _) s
      · exact (ro_bind (ro_get_from_migration F m) (fun next => ih next _)) s

theorem ro_get_last_applied (F : Filesystem σ) (C : Conn) (fuel : Nat) (ms : Migrations) :
    ReadOnly (ms.get_last_applied_migration F C fuel) := by
  unfold Migrations.get_last_applied_migration
  exact ro_bind (ro_connQuery C _ _) (fun rows =>
    ro_bind (ro_ofExcept _) (fun applied =>
      ro_bind (ro_get_latest F ms) (fun last => ro_lastAppliedLoop F applied fuel last)))

theorem ro_get_all_migrations (F : Filesystem σ) (fuel : Nat) (ms : Migrations) :
    ReadOnly (ms.get_all_migrations F fuel) := by
  unfold Migrations.get_all_migrations
  exact ro_bind (ro_get_latest F ms) (fun last => ro_chainAllLoop F fuel last [])

theorem run_eq_of_ro {x : M σ α} (hx : ReadOnly x) (s : σ) : x s = ((x s).1, s, []) := by
  rcases hr : x s with ⟨r, s1, t1⟩
  have h := hx s
  rw [hr] at h
  simp at h
  simp [h.1, h.2]

theorem backChain_allLoop {F : Filesystem σ} {s : σ} {cur : Option Migration}
    {l : List Migration} (hc : BackChain F s cur l) :
    ∀ (accum : List Migration) (fuel : Nat), l.length ≤ fuel →
      chainAllLoop F fuel cur accum s = (.ok (some (accum ++ l).reverse), s, []) := by
  induction hc with
  | nil =>
    intro accum fuel hfuel
    rcases fuel with _ | n <;> simp [chainAllLoop, M.pure]
  | cons m prev rest hstep htail ih =>
    intro accum fuel hfuel
    rcases fuel with _ | n
    · simp at hfuel
    · have hrest : rest.length ≤ n := by
        simp at hfuel
        omega
      have ihr := ih (accum ++ [m]) n hrest
      unfold chainAllLoop
      unfold M.bind
      rw [hstep]
      dsimp only
      rw [ihr]
      simp

theorem get_all_of_chain {F : Filesystem σ} {s : σ} {ms : Migrations} {tip : Option Migration}
    {l : List Migration} (fuel : Nat)
    (htip : (ms.get_latest F s).1 = .ok tip)
    (hchain : BackChain F s tip l)
    (hfuel : l.length ≤ fuel) :
    ms.get_all_migrations F fuel s = (.ok (some l.reverse), s, []) := by
  have hlat := run_eq_of_ro (ro_get_latest F ms) s
  rw [htip] at hlat
  unfold Migrations.get_all_migrations
  unfold M.bind
  rw [hlat]
  dsimp only
  rw [backChain_allLoop hchain [] fuel hfuel]
  simp

theorem bind_run_ok {x : M σ α} {f : α → M σ β} {s s1 : σ} {a : α} {t1 : List Event}
    (hx : x s = (.ok a, s1, t1)) :
    M.bind x f s = ((f a s1).1, (f a s1).2.1, t1 ++ (f a s1).2.2) := by
  unfold M.bind
  rw [hx]

theorem bind_run_error {x : M σ α} {s s1 : σ} {e : Error} {t1 : List Event} (f : α → M σ β)
    (hx : x s = (.error e, s1, t1)) :
    M.bind x f s = (.error e, s1, t1) := by
  unfold M.bind
  rw [hx]

theorem mem_lookup_ensure (s : MemFs) (p q : FPath) :
    (memEnsureState s p).lookup q = s.lookup q := rfl

theorem find_filter_ne {l : List (FPath × FileData)} {p q : FPath} (hpq : p ≠ q) :
    (l.filter (fun e => !(e.1 == p))).find? (fun e => e.1 == q)
      = l.find? (fun e => e.1 == q) := by
  induction l with
  | nil => rfl
  | cons e rest ih =>
    by_cases h1 : e.1 = p
    · have hnq : (e.1 == q) = false := by
        rw [beq_eq_false_iff_ne]
        rw [h1]
        exact hpq
      have hp : (e.1 == p) = true := by
        rw [beq_iff_eq]
        exact h1
      simp [List.filter_cons, List.find?, hp, hnq, ih]
    · have hp : (e.1 == p) = false := by
        rw [beq_eq_false_iff_ne]
        exact h1
      by_cases h2 : e.1 = q
      · have hq : (e.1 == q) = true := by
          rw [beq_iff_eq]
          exact h2
        simp [List.filter_cons, List.find?, hp, hq]
      · have hq : (e.1 == q) = false := by
          rw [beq_eq_false_iff_ne]
          exact h2
        simp [List.filter_cons, List.find?, hp, hq, ih]

theorem mem_lookup_write_ne (s : MemFs) {p q : FPath} (d : FileData) (hpq : p ≠ q) :
    (memWriteState s p d).lookup q = s.lookup q := by
  unfold memWriteState MemFs.lookup
  have hp : (p == q) = false := by
    rw [beq_eq_false_iff_ne]
    exact hpq
  simp only [List.find?, hp]
  rw [find_filter_ne hpq]

theorem mem_get_state_frame (ms : Migrations) {s s2 : MemFs}
    (h : s2.lookup (ms.root ++ ["state.json"]) = s.lookup (ms.root ++ ["state.json"])) :
    ms.get_state memFilesystem s2 = ((ms.get_state memFilesystem s).1, s2, []) := by
  unfold Migrations.get_state memFilesystem
  dsimp only
  rw [h]
  rcases s.lookup (ms.root ++ ["state.json"]) with _ | d <;> rfl

theorem ro_getdb_tail (F : Filesystem σ) (p : FPath) :
    ReadOnly (M.bind (fsListDir F p) (fun entries =>
      M.bind (loadTables F entries ADB.new) (fun db => ofExcept db.resolve_types))) := by
  refine ro_bind ?_ (fun entries => ro_bind (ro_loadTables F entries ADB.new) (fun db => ro_ofExcept _))
  intro s
  unfold fsListDir
  rcases F.list_dir s p with e | l <;> rfl

theorem get_db_run (F : Filesystem σ) (m : Migration) {s s1 : σ}
    (he : F.ensure_dir s m.root = .ok s1) :
    ∃ r, m.get_db F s = (r, s1, [Event.ensuredDir m.root]) := by
  have hens : (m.ensure_dir F) s = (.ok (), s1, [Event.ensuredDir m.root]) := by
    unfold Migration.ensure_dir fsEnsureDir
    rw [he]
  unfold Migration.get_db
  rw [bind_run_ok hens]
  rcases ht : (M.bind (fsListDir F m.root) (fun entries =>
      M.bind (loadTables F entries ADB.new) (fun db => ofExcept db.resolve_types))) s1 with ⟨r, s2, t2⟩
  have hro := run_eq_of_ro (ro_getdb_tail F m.root) s1
  rw [ht] at hro
  dsimp at hro
  simp only [Prod.mk.injEq] at hro
  obtain ⟨hs2, ht2⟩ := hro.2
  subst hs2
  subst ht2
  exact ⟨r, by simp⟩

theorem get_db_trace (F : Filesystem σ) (m : Migration) (s : σ) :
    (m.get_db F s).2.2 = [Event.ensuredDir m.root] := by
  rcases he : F.ensure_dir s m.root with e | s1
  · have hens : (m.ensure_dir F) s = (.error (.Io e), s, [Event.ensuredDir m.root]) := by
      unfold Migration.ensure_dir fsEnsureDir
      rw [he]
    unfold Migration.get_db
    rw [bind_run_error _ hens]
  · obtain ⟨r, hr⟩ := get_db_run F m he
    rw [hr]

theorem resolve_col_known {db : ADB} {c c2 : AColumn} (h : AColumn.resolve db c = .ok c2) :
    ∃ ty, c2.sqltype = DeferredSqlType.Known ty := by
  unfold AColumn.resolve at h
  rcases hc : c.sqltype with ty | key <;> rw [hc] at h <;> dsimp only at h
  · injection h with h1
    refine ⟨ty, ?_⟩
    rw [← h1]
    exact hc
  · rcases hl : db.lookupType key with _ | ty <;> rw [hl] at h
    · cases h
    · injection h with h1
      refine ⟨ty, ?_⟩
      rw [← h1]

theorem resolveCols_known {db : ADB} {cs cs2 : List AColumn} (h : resolveCols db cs = .ok cs2) :
    ∀ c2 ∈ cs2, ∃ ty, c2.sqltype = DeferredSqlType.Known ty := by
  induction cs generalizing cs2 with
  | nil =>
    unfold resolveCols at h
    injection h with h1
    subst h1
    intro c2 hc2
    simp at hc2
  | cons c rest ih =>
    unfold resolveCols at h
    rcases hr : AColumn.resolve db c with e | ch <;> rw [hr] at h
    · cases h
    · rcases hrest : resolveCols db rest with e | cs3 <;> rw [hrest] at h
      · cases h
      · injection h with h1
        subst h1
        intro c2 hc2
        rcases List.mem_cons.mp hc2 with h2 | h2
        · subst h2
          exact resolve_col_known hr
        · exact ih hrest c2 h2

theorem resolveTables_known {db : ADB} {ts ts2 : List ATable} (h : resolveTables db ts = .ok ts2) :
    ∀ t ∈ ts2, ∀ c ∈ t.columns, ∃ ty, c.sqltype = DeferredSqlType.Known ty := by
  induction ts generalizing ts2 with
  | nil =>
    unfold resolveTables at h
    injection h with h1
    subst h1
    intro t ht
    simp at ht
  | cons t rest ih =>
    unfold resolveTables at h
    rcases hc : resolveCols db t.columns with e | cs <;> rw [hc] at h
    · cases h
    · rcases hrest : resolveTables db rest with e | ts3 <;> rw [hrest] at h
      · cases h
      · injection h with h1
        subst h1
        intro t2 ht2
        rcases List.mem_cons.mp ht2 with h2 | h2
        · subst h2
          intro c hcmem
          exact resolveCols_known hc c hcmem
        · exact ih hrest t2 h2

/-- C10: every schema successfully returned by Migration.get_db has all of
its column types resolved to Known: get_db assembles the schema from the
files with the .table suffix, always runs resolve_types on it, and fails
when resolution fails, so no caller observes a deferred type in a loaded
snapshot. -/
theorem c10_get_db_resolved_types (F : Filesystem σ) (m : Migration) (s : σ)
    (db : ADB) (s2 : σ) (tr : List Event)
    (h : m.get_db F s = (.ok db, s2, tr)) :
    ∀ t ∈ db, ∀ c ∈ t.columns, ∃ ty, c.sqltype = DeferredSqlType.Known ty := by
  have h1 : (m.get_db F s).1 = .ok db := by rw [h]
  clear h
  rcases he : F.ensure_dir s m.root with e | s1
  · have hens : (m.ensure_dir F) s = (.error (.Io e), s, [Event.ensuredDir m.root]) := by
      unfold Migration.ensure_dir fsEnsureDir
      rw [he]
    unfold Migration.get_db at h1
    rw [bind_run_error _ hens] at h1
    cases h1
  · have hens : (m.ensure_dir F) s = (.ok (), s1, [Event.ensuredDir m.root]) := by
      unfold Migration.ensure_dir fsEnsureDir
      rw [he]
    unfold Migration.get_db at h1
    rw [bind_run_ok hens] at h1
    dsimp only at h1
    rcases hl : F.list_dir s1 m.root with e | entries
    · have hld : fsListDir F m.root s1 = (.error (.Io e), s1, []) := by
        unfold fsListDir
        rw [hl]
      rw [bind_run_error _ hld] at h1
      cases h1
    · have hld : fsListDir F m.root s1 = (.ok entries, s1, []) := by
        unfold fsListDir
        rw [hl]
      rw [bind_run_ok hld] at h1
      dsimp only at h1
      rcases hload : loadTables F entries ADB.new s1 with ⟨r0, s0, t0⟩
      rcases r0 with e | db0
      · rw [bind_run_error _ hload] at h1
        cases h1
      · rw [bind_run_ok hload] at h1
        dsimp only at h1
        have hres : db0.resolve_types = .ok db := h1
        unfold ADB.resolve_types at hres
        exact resolveTables_known hres

/-- Witness for C10: loading the current snapshot with a deferred
reference from Post to the primary key of Blog succeeds, and the theorem
yields that every column of the result is Known. -/
theorem c10_get_db_resolved_types_witness :
    (Migrations.get_current chainRoot).get_db memFilesystem memBlogPost
      = (.ok [tblBlog, tblPostResolved],
         { dirs := [["r", "current"]], files := memBlogPost.files },
         [Event.ensuredDir ["r", "current"]]) ∧
    (∀ t ∈ [tblBlog, tblPostResolved], ∀ c ∈ t.columns,
      ∃ ty, c.sqltype = DeferredSqlType.Known ty) :=
  ⟨rfl,
   c10_get_db_resolved_types memFilesystem (Migrations.get_current chainRoot) memBlogPost
     [tblBlog, tblPostResolved]
     { dirs := [["r", "current"]], files := memBlogPost.files }
     [Event.ensuredDir ["r", "current"]] rfl⟩

theorem get_latest_run (F : Filesystem σ) (ms : Migrations) (s : σ) :
    ms.get_latest F s =
      (.ok (match (ms.get_state F s).1 with
        | .ok st =>
          (match st.latest with
            | none => none
            | some name => some (ms.get_migration name))
        | .error _ => none), s, []) := by
  have hst := run_eq_of_ro (ro_get_state F ms) s
  rcases hR : (ms.get_state F s).1 with e | st
  · have h2 : ms.get_state F s = (.error e, s, []) := by
      rw [hst, hR]
    unfold Migrations.get_latest Mcatch
    rw [bind_run_error _ h2]
  · have h2 : ms.get_state F s = (.ok st, s, []) := by
      rw [hst, hR]
    unfold Migrations.get_latest Mcatch
    rw [bind_run_ok h2]
    rfl

/-- C9: get_latest never propagates an error: it returns none not only
when state.json is absent or its latest field is null, but on every
other failure of get_state as well, silently discarding the error that
get_state would report. -/
theorem c9_get_latest_swallows_errors (F : Filesystem σ) (ms : Migrations) (s : σ) :
    (∃ v, ms.get_latest F s = (.ok v, s, [])) ∧
    (∀ e, (ms.get_state F s).1 = .error e → ms.get_latest F s = (.ok none, s, [])) ∧
    ((ms.get_state F s).1 = .ok MigrationsState.new → ms.get_latest F s = (.ok none, s, [])) ∧
    (F.read s (ms.root ++ ["state.json"]) = .error IOErr.notFound →
      ms.get_latest F s = (.ok none, s, [])) := by
  have hrun := get_latest_run F ms s
  refine ⟨⟨_, hrun⟩, ?_, ?_, ?_⟩
  · intro e he
    have h := hrun
    rw [he] at h
    exact h
  · intro hok
    have h := hrun
    rw [hok] at h
    exact h
  · intro hread
    have hgs : (ms.get_state F s).1 = .ok MigrationsState.new := by
      unfold Migrations.get_state
      rw [hread]
      rfl
    have h := hrun
    rw [hgs] at h
    exact h

/-- Witness for C9: a filesystem whose reads fail with an error other
than NotFound makes get_state fail, and get_latest still returns none. -/
theorem c9_get_latest_swallows_errors_witness :
    (chainRoot.get_state erroringFs ()).1 = .error (.Io (.other "disk")) ∧
    chainRoot.get_latest erroringFs () = (.ok none, (), []) :=
  ⟨rfl, (c9_get_latest_swallows_errors erroringFs chainRoot ()).2.1 (.Io (.other "disk")) rfl⟩

/-- Counterexample to C4 as stated: with no forward sql file present,
apply fails with the propagated NotFound input output error, which is
not a MigrationError. -/
theorem c4_counterexample :
    Migration.apply memFilesystem connOk { root := ["r", "m1"] } memNoFiles
      = (.error (.Io .notFound), memNoFiles, []) ∧
    Error.isMigrationErr (.Io .notFound) = false :=
  ⟨rfl, rfl⟩

/-- C4 amended: if reading the forward sql file for the backend of the
connection fails (in particular when the file is absent, a NotFound
error), apply fails with the propagated input output error, which is not
a MigrationError, and executes no sql against the connection. -/
theorem c4_missing_sql_io_error (F : Filesystem σ) (C : Conn) (m : Migration) (s : σ) (e : IOErr)
    (hread : F.read s (m.sql_path C.backend_name ("up")) = .error e) :
    m.apply F C s = (.error (.Io e), s, []) ∧
    Error.isMigrationErr (.Io e) = false ∧
    (∀ q, Event.executedSql q ∉ (m.apply F C s).2.2) := by
  have hf : fsRead F (m.sql_path C.backend_name ("up")) s = (.error (.Io e), s, []) := by
    unfold fsRead
    rw [hread]
  have hup : m.up_sql F C.backend_name s = (.error (.Io e), s, []) := by
    unfold Migration.up_sql Migration.read_sql
    rw [bind_run_error _ hf]
  have happ : m.apply F C s = (.error (.Io e), s, []) := by
    unfold Migration.apply
    rw [bind_run_error _ hup]
  refine ⟨happ, rfl, ?_⟩
  rw [happ]
  intro q
  simp

/-- Witness for C4 amended at a concrete empty filesystem. -/
theorem c4_missing_sql_io_error_witness :
    memFilesystem.read memNoFiles ((Migration.mk ["r", "m1"]).sql_path ("sqlite") ("up"))
      = .error .notFound ∧
    Migration.apply memFilesystem connOk { root := ["r", "m1"] } memNoFiles
      = (.error (.Io .notFound), memNoFiles, []) :=
  ⟨rfl,
   (c4_missing_sql_io_error memFilesystem connOk { root := ["r", "m1"] } memNoFiles
      IOErr.notFound rfl).1⟩

/-- C5: the bookkeeping insert is performed only if executing the forward
sql succeeded: if execution returns an error, apply returns that error,
the trace records only the execution attempt, and no bookkeeping row is
inserted. -/
theorem c5_insert_only_after_execute (F : Filesystem σ) (C : Conn) (m : Migration) (s : σ)
    (d : FileData) (e : Error)
    (hread : F.read s (m.sql_path C.backend_name ("up")) = .ok d)
    (hexec : C.execute_result d.asString = .error e) :
    m.apply F C s = (.error e, s, [Event.executedSql d.asString]) ∧
    (∀ tb vals, Event.insertedRow tb vals ∉ (m.apply F C s).2.2) := by
  have hf : fsRead F (m.sql_path C.backend_name ("up")) s = (.ok d, s, []) := by
    unfold fsRead
    rw [hread]
  have hup : m.up_sql F C.backend_name s = (.ok d.asString, s, []) := by
    unfold Migration.up_sql Migration.read_sql
    rw [bind_run_ok hf]
    rfl
  have hex : connExecute C d.asString s
      = ((.error e : Except Error Unit), s, [Event.executedSql d.asString]) := by
    unfold connExecute
    rw [hexec]
  have happ : m.apply F C s = (.error e, s, [Event.executedSql d.asString]) := by
    unfold Migration.apply
    rw [bind_run_ok hup]
    rw [bind_run_error _ hex]
    simp
  refine ⟨happ, ?_⟩
  rw [happ]
  intro tb vals
  simp

/-- Witness for C5: a failing execute on a present forward sql file. -/
theorem c5_insert_only_after_execute_witness :
    memFilesystem.read memUpOnly ((Migration.mk ["r", "m1"]).sql_path ("sqlite") ("up"))
      = .ok (.raw "CREATE") ∧
    connExecFail.execute_result ((FileData.raw "CREATE").asString)
      = .error (.InvalidMigration "bad") ∧
    Migration.apply memFilesystem connExecFail { root := ["r", "m1"] } memUpOnly
      = (.error (.InvalidMigration "bad"), memUpOnly, [Event.executedSql "CREATE"]) :=
  ⟨rfl, rfl,
   (c5_insert_only_after_execute memFilesystem connExecFail { root := ["r", "m1"] } memUpOnly
      (.raw "CREATE") (.InvalidMigration "bad") rfl rfl).1⟩

/-- C1 evaluated at a failing input: with the chain consisting of the
single tip m1, and the applied migrations table holding exactly the row
m1 (as it does after apply(m1)), get_last_applied_migration returns
none; with no applied rows at all it returns the tip instead. The walk
returns the first node whose name is absent from the rows, and so
inverts the documented behaviour that the claim states. -/
theorem c1_last_applied_inverted :
    chainRoot.get_last_applied_migration memFilesystem connRowsM1 5 memStateM1
      = (.ok (some none), memStateM1, []) ∧
    chainRoot.get_last_applied_migration memFilesystem connOk 5 memStateM1
      = (.ok (some (some { root := ["r", "m1"] })), memStateM1, []) :=
  ⟨rfl, rfl⟩

/-- C2 evaluated at a failing input: the reverse sql written to
<name>/<backend>_down.sql is rendered with from_db as the schema
argument, not with to_db as the claim states; on a backend whose output
depends on the schema argument the two renderings differ and only the
from_db one is written. -/
theorem c2_down_sql_uses_from_db :
    Event.wroteFile ["r", "m1", "sqlite_down.sql"]
        (.raw (mockBackend.create_migration_sql [tblA] (diff [tblB] [tblA])))
      ∈ (chainRoot.create_migration memFilesystem mockBackend ("m1")
          (some { root := ["r", "m0"] }) memTwoSnapshots).2.2 ∧
    Event.wroteFile ["r", "m1", "sqlite_down.sql"]
        (.raw (mockBackend.create_migration_sql [tblB] (diff [tblB] [tblA])))
      ∉ (chainRoot.create_migration memFilesystem mockBackend ("m1")
          (some { root := ["r", "m0"] }) memTwoSnapshots).2.2 ∧
    mockBackend.create_migration_sql [tblA] (diff [tblB] [tblA])
      ≠ mockBackend.create_migration_sql [tblB] (diff [tblB] [tblA]) := by
  refine ⟨?_, ?_, ?_⟩ <;> decide

/-- C6: if get_last_applied_migration fails for any reason, or succeeds
with none, then get_unapplied_migrations returns every migration of the
chain in forward (root first) order. -/
theorem c6_unapplied_on_failure_all (F : Filesystem σ) (C : Conn) (ms : Migrations)
    (s : σ) (fuel : Nat) (tip : Option Migration) (l : List Migration)
    (hlast : lastAppliedFailedOrNone ((ms.get_last_applied_migration F C fuel s).1) = true)
    (htip : (ms.get_latest F s).1 = .ok tip)
    (hchain : BackChain F s tip l)
    (hfuel : l.length ≤ fuel) :
    ms.get_unapplied_migrations F C fuel s = (.ok (some l.reverse), s, []) := by
  have hro := run_eq_of_ro (ro_get_last_applied F C fuel ms) s
  have hga := get_all_of_chain fuel htip hchain hfuel
  unfold Migrations.get_unapplied_migrations
  rcases hR : (ms.get_last_applied_migration F C fuel s).1 with e | v
  · have h2 : ms.get_last_applied_migration F C fuel s = (.error e, s, []) := by
      rw [hro, hR]
    rw [h2]
    dsimp only
    rw [hga]
    rfl
  · rcases v with _ | w
    · rw [hR] at hlast
      cases hlast
    · rcases w with _ | m
      · have h2 : ms.get_last_applied_migration F C fuel s = (.ok (some none), s, []) := by
          rw [hro, hR]
        rw [h2]
        dsimp only
        rw [hga]
        rfl
      · rw [hR] at hlast
        cases hlast

/-- Witness for C6: a two node chain with a connection whose query fails;
get_unapplied_migrations yields both migrations, root first. -/
theorem c6_unapplied_on_failure_all_witness :
    lastAppliedFailedOrNone
        ((chainRoot.get_last_applied_migration memFilesystem connQueryFail 5 memChain2).1) = true ∧
    chainRoot.get_unapplied_migrations memFilesystem connQueryFail 5 memChain2
      = (.ok (some [{ root := ["r", "m1"] }, { root := ["r", "m2"] }]), memChain2, []) :=
  ⟨rfl,
   c6_unapplied_on_failure_all memFilesystem connQueryFail chainRoot memChain2 5
     (some { root := ["r", "m2"] })
     [{ root := ["r", "m2"] }, { root := ["r", "m1"] }]
     rfl rfl
     (BackChain.cons { root := ["r", "m2"] } (some { root := ["r", "m1"] })
        [{ root := ["r", "m1"] }] rfl
        (BackChain.cons { root := ["r", "m1"] } none [] rfl BackChain.nil))
     (by decide)⟩

/-- C7: when the diff between the from schema and the current snapshot is
empty, create_migration returns none, performs no file write at all (so
no sql, no info.json, no snapshot and no state.json change), and does
not create a directory for the new migration name. -/
theorem c7_empty_diff_no_changes (F : Filesystem σ) (B : Backend) (ms : Migrations)
    (name : String) (fromM : Option Migration) (s s1 s2 : σ) (fdb tdb : ADB)
    (t1 t2 : List Event)
    (hfrom : (match fromM with
      | none => (M.pure ADB.new : M σ ADB)
      | some m0 => m0.get_db F) s = (.ok fdb, s1, t1))
    (hto : (ms.get_current).get_db F s1 = (.ok tdb, s2, t2))
    (hdiff : diff fdb tdb = [])
    (hname1 : ∀ m0, fromM = some m0 → m0.root ≠ ms.root ++ [name])
    (hname2 : name ≠ "current") :
    ms.create_migration F B name fromM s = (.ok none, s2, t1 ++ t2) ∧
    (∀ p d, Event.wroteFile p d ∉ t1 ++ t2) ∧
    Event.ensuredDir (ms.root ++ [name]) ∉ t1 ++ t2 := by
  have ht2 : t2 = [Event.ensuredDir (ms.root ++ ["current"])] := by
    have h := get_db_trace F (ms.get_current) s1
    rw [hto] at h
    exact h
  have ht1 : (fromM = none ∧ t1 = []) ∨
      (∃ m0, fromM = some m0 ∧ t1 = [Event.ensuredDir m0.root]) := by
    rcases fromM with _ | m0
    · left
      refine ⟨rfl, ?_⟩
      have h0 : ((.ok ADB.new : Except Error ADB), s, ([] : List Event))
          = (.ok fdb, s1, t1) := hfrom
      rw [Prod.mk.injEq] at h0
      rw [Prod.mk.injEq] at h0
      exact h0.2.2.symm
    · right
      refine ⟨m0, rfl, ?_⟩
      have hfrom2 : m0.get_db F s = (.ok fdb, s1, t1) := hfrom
      have h := get_db_trace F m0 s
      rw [hfrom2] at h
      exact h
  have hmain : ms.create_migration F B name fromM s = (.ok none, s2, t1 ++ t2) := by
    unfold Migrations.create_migration
    try dsimp only
    rw [bind_run_ok hfrom]
    try dsimp only
    rw [bind_run_ok hto]
    try dsimp only
    have hp : (M.pure (diff fdb tdb) : M σ (List Operation)) s2
        = (.ok (diff fdb tdb), s2, []) := rfl
    rw [bind_run_ok hp]
    try dsimp only
    rw [hdiff]
    simp [M.pure]
  refine ⟨hmain, ?_, ?_⟩
  · intro p d
    rcases ht1 with ⟨h0, h1⟩ | ⟨m0, h0, h1⟩ <;> rw [h1, ht2]
    · intro hmem
      rw [List.nil_append, List.mem_singleton] at hmem
      cases hmem
    · intro hmem
      rcases List.mem_append.mp hmem with h2 | h2 <;> rw [List.mem_singleton] at h2
      · cases h2
      · cases h2
  · rcases ht1 with ⟨h0, h1⟩ | ⟨m0, h0, h1⟩ <;> rw [h1, ht2]
    · intro hmem
      rw [List.nil_append, List.mem_singleton] at hmem
      injection hmem with h2
      have h3 := List.append_cancel_left h2
      injection h3 with h4 h5
      exact hname2 h4
    · intro hmem
      rcases List.mem_append.mp hmem with h2 | h2 <;> rw [List.mem_singleton] at h2
      · injection h2 with h3
        exact hname1 m0 h0 h3.symm
      · injection h2 with h3
        have h4 := List.append_cancel_left h3
        injection h4 with h5 h6
        exact hname2 h5

/-- Witness for C7: starting from an empty filesystem with from = none,
the current snapshot is empty, the diff is empty, and nothing is created
or written. -/
theorem c7_empty_diff_no_changes_witness :
    chainRoot.create_migration memFilesystem mockBackend ("m1") none memNoFiles
      = (.ok none, { dirs := [["r", "current"]], files := [] },
         [] ++ [Event.ensuredDir ["r", "current"]]) ∧
    (∀ p d, Event.wroteFile p d ∉ ([] : List Event) ++ [Event.ensuredDir ["r", "current"]]) ∧
    Event.ensuredDir (["r"] ++ ["m1"]) ∉ ([] : List Event) ++ [Event.ensuredDir ["r", "current"]] :=
  c7_empty_diff_no_changes memFilesystem mockBackend chainRoot ("m1") none
    memNoFiles memNoFiles { dirs := [["r", "current"]], files := [] } ADB.new ADB.new
    [] [Event.ensuredDir ["r", "current"]]
    rfl rfl rfl
    (fun m0 h => by cases h)
    (by decide)

/-- C8: when create_migration is called with from = none and succeeds in
creating a migration, the forward sql written to the file
<name>/<backend>_up.sql is rendered from the empty schema and from the
diff operations with AddTable(propane_migrations) appended at the end,
and the bookkeeping table consists of the single non nullable text
primary key column name. -/
theorem c8_first_migration_bookkeeping_table (F : Filesystem σ) (B : Backend) (ms : Migrations)
    (name : String) (s s1 : σ) (tdb : ADB) (t1 : List Event)
    (res : Option Migration) (s9 : σ) (tr : List Event)
    (hto : (ms.get_current).get_db F s = (.ok tdb, s1, t1))
    (hrun : ms.create_migration F B name none s = (.ok res, s9, tr))
    (hdiff : diff ADB.new tdb ≠ []) :
    Event.wroteFile (ms.root ++ [name] ++ [B.get_name ++ "_up" ++ ".sql"])
        (.raw (B.create_migration_sql ADB.new
          (diff ADB.new tdb ++ [Operation.AddTable migrations_table])))
      ∈ tr ∧
    migrations_table =
      { name := "propane_migrations",
        columns := [{ name := "name", sqltype := .Known .Text, nullable := false,
                      pk := true, auto := false, default := none }] } := by
  refine ⟨?_, rfl⟩
  have hq : ¬ ((diff ADB.new tdb).isEmpty = true) := by
    intro hc
    exact hdiff (List.isEmpty_iff.mp hc)
  have h0 : ((match (none : Option Migration) with
      | none => (M.pure ADB.new : M σ ADB)
      | some m0 => m0.get_db F)) s = (.ok ADB.new, s, []) := rfl
  have hp : (M.pure (diff ADB.new tdb) : M σ (List Operation)) s1
      = (.ok (diff ADB.new tdb), s1, []) := rfl
  unfold Migrations.create_migration at hrun
  try dsimp only at hrun
  rw [bind_run_ok h0] at hrun
  try dsimp only at hrun
  rw [bind_run_ok hto] at hrun
  try dsimp only at hrun
  rw [bind_run_ok hp] at hrun
  try dsimp only at hrun
  rw [if_neg hq] at hrun
  have hiff : (if (none : Option Migration).isNone = true
      then diff ADB.new tdb ++ [Operation.AddTable migrations_table]
      else diff ADB.new tdb) = diff ADB.new tdb ++ [Operation.AddTable migrations_table] := rfl
  rw [hiff] at hrun
  rcases he : F.ensure_dir s1 (ms.get_migration name).root with e | sa
  · have hens : (Migration.ensure_dir F (ms.get_migration name)) s1
        = (.error (.Io e), s1, [Event.ensuredDir (ms.get_migration name).root]) := by
      unfold Migration.ensure_dir fsEnsureDir
      rw [he]
    have hwc : Migration.write_contents F (ms.get_migration name)
        (B.get_name ++ "_up" ++ ".sql")
        (.raw (B.create_migration_sql ADB.new
          (diff ADB.new tdb ++ [Operation.AddTable migrations_table]))) s1
        = (.error (.Io e), s1, [Event.ensuredDir (ms.get_migration name).root]) := by
      unfold Migration.write_contents
      rw [bind_run_error _ hens]
    unfold Migration.write_sql at hrun
    rw [bind_run_error _ hwc] at hrun
    have hc2 := congrArg (fun z => z.1) hrun
    simp at hc2
  · have hens : (Migration.ensure_dir F (ms.get_migration name)) s1
        = (.ok (), sa, [Event.ensuredDir (ms.get_migration name).root]) := by
      unfold Migration.ensure_dir fsEnsureDir
      rw [he]
    rcases hw : F.write sa ((ms.get_migration name).root ++ [B.get_name ++ "_up" ++ ".sql"])
        (.raw (B.create_migration_sql ADB.new
          (diff ADB.new tdb ++ [Operation.AddTable migrations_table]))) with e | sb
    · have hfsw : fsWrite F ((ms.get_migration name).root ++ [B.get_name ++ "_up" ++ ".sql"])
          (.raw (B.create_migration_sql ADB.new
            (diff ADB.new tdb ++ [Operation.AddTable migrations_table]))) sa
          = (.error (.Io e), sa, []) := by
        unfold fsWrite
        rw [hw]
      have hwc : Migration.write_contents F (ms.get_migration name)
          (B.get_name ++ "_up" ++ ".sql")
          (.raw (B.create_migration_sql ADB.new
            (diff ADB.new tdb ++ [Operation.AddTable migrations_table]))) s1
          = (.error (.Io e), sa, [Event.ensuredDir (ms.get_migration name).root]) := by
        unfold Migration.write_contents
        rw [bind_run_ok hens]
        rw [hfsw]
        rfl
      unfold Migration.write_sql at hrun
      rw [bind_run_error _ hwc] at hrun
      have hc2 := congrArg (fun z => z.1) hrun
      simp at hc2
    · have hfsw : fsWrite F ((ms.get_migration name).root ++ [B.get_name ++ "_up" ++ ".sql"])
          (.raw (B.create_migration_sql ADB.new
            (diff ADB.new tdb ++ [Operation.AddTable migrations_table]))) sa
          = (.ok (), sb,
             [Event.wroteFile ((ms.get_migration name).root ++ [B.get_name ++ "_up" ++ ".sql"])
               (.raw (B.create_migration_sql ADB.new
                 (diff ADB.new tdb ++ [Operation.AddTable migrations_table])))]) := by
        unfold fsWrite
        rw [hw]
      have hwc : Migration.write_contents F (ms.get_migration name)
          (B.get_name ++ "_up" ++ ".sql")
          (.raw (B.create_migration_sql ADB.new
            (diff ADB.new tdb ++ [Operation.AddTable migrations_table]))) s1
          = (.ok (), sb,
             [Event.ensuredDir (ms.get_migration name).root,
              Event.wroteFile ((ms.get_migration name).root ++ [B.get_name ++ "_up" ++ ".sql"])
               (.raw (B.create_migration_sql ADB.new
                 (diff ADB.new tdb ++ [Operation.AddTable migrations_table])))]) := by
        unfold Migration.write_contents
        rw [bind_run_ok hens]
        rw [hfsw]
        rfl
      unfold Migration.write_sql at hrun
      rw [bind_run_ok hwc] at hrun
      try dsimp only at hrun
      have htr := congrArg (fun z => z.2.2) hrun
      dsimp at htr
      rw [← htr]
      simp [Migrations.get_migration]

/-- Witness for C8: the first migration created from an empty chain on a
snapshot with one table writes a forward script rendered from the empty
schema and the diff with the bookkeeping AddTable appended. -/
theorem c8_first_migration_bookkeeping_table_witness :
    ((chainRoot.get_current).get_db memFilesystem memCurrentB
       = (.ok [tblB],
          { dirs := [["r", "current"]],
            files := [(["r", "current", "t2.table"], .table tblB)] },
          [Event.ensuredDir ["r", "current"]])) ∧
    diff ADB.new [tblB] ≠ [] ∧
    Event.wroteFile (["r"] ++ ["m1"] ++ ["sqlite" ++ "_up" ++ ".sql"])
        (.raw (mockBackend.create_migration_sql ADB.new
          (diff ADB.new [tblB] ++ [Operation.AddTable migrations_table])))
      ∈ [Event.ensuredDir ["r", "current"],
         Event.ensuredDir ["r", "m1"],
         Event.wroteFile ["r", "m1", "sqlite_up.sql"] (.raw "|;+t2;+propane_migrations"),
         Event.ensuredDir ["r", "m1"],
         Event.wroteFile ["r", "m1", "sqlite_down.sql"] (.raw "|;-t2"),
         Event.ensuredDir ["r", "m1"],
         Event.wroteFile ["r", "m1", "info.json"] (.info { from_name := none }),
         Event.wroteFile ["r", "state.json"] (.state { latest := some "m1" })] :=
  ⟨rfl, by decide,
   (c8_first_migration_bookkeeping_table memFilesystem mockBackend chainRoot ("m1")
      memCurrentB
      { dirs := [["r", "current"]],
        files := [(["r", "current", "t2.table"], .table tblB)] }
      [tblB] [Event.ensuredDir ["r", "current"]]
      (some { root := ["r", "m1"] })
      { dirs := [["r", "m1"], ["r", "current"]],
        files := [(["r", "state.json"], .state { latest := some "m1" }),
                  (["r", "m1", "info.json"], .info { from_name := none }),
                  (["r", "m1", "sqlite_down.sql"], .raw "|;-t2"),
                  (["r", "m1", "sqlite_up.sql"], .raw "|;+t2;+propane_migrations"),
                  (["r", "current", "t2.table"], .table tblB)] }
      [Event.ensuredDir ["r", "current"],
       Event.ensuredDir ["r", "m1"],
       Event.wroteFile ["r", "m1", "sqlite_up.sql"] (.raw "|;+t2;+propane_migrations"),
       Event.ensuredDir ["r", "m1"],
       Event.wroteFile ["r", "m1", "sqlite_down.sql"] (.raw "|;-t2"),
       Event.ensuredDir ["r", "m1"],
       Event.wroteFile ["r", "m1", "info.json"] (.info { from_name := none }),
       Event.wroteFile ["r", "state.json"] (.state { latest := some "m1" })]
      rfl rfl (by decide)).1⟩

theorem mem_write_contents_run (m : Migration) (fname : String) (d : FileData) (s : MemFs) :
    Migration.write_contents memFilesystem m fname d s
      = (.ok (), memWriteState (memEnsureState s m.root) (m.root ++ [fname]) d,
         [Event.ensuredDir m.root, Event.wroteFile (m.root ++ [fname]) d]) := rfl

theorem bind_write_contents {β : Type} (m : Migration) (fname : String) (d : FileData)
    (f : Unit → M MemFs β) (s : MemFs) :
    M.bind (Migration.write_contents memFilesystem m fname d) f s
      = ((f () (memWriteState (memEnsureState s m.root) (m.root ++ [fname]) d)).1,
         (f () (memWriteState (memEnsureState s m.root) (m.root ++ [fname]) d)).2.1,
         [Event.ensuredDir m.root, Event.wroteFile (m.root ++ [fname]) d]
           ++ (f () (memWriteState (memEnsureState s m.root) (m.root ++ [fname]) d)).2.2) :=
  bind_run_ok (mem_write_contents_run m fname d s)

theorem mem_lookup_write_self (s : MemFs) (p : FPath) (d : FileData) :
    (memWriteState s p d).lookup p = some d := by
  unfold memWriteState MemFs.lookup
  simp [List.find?]

theorem mem_lookup_eq_of_files {s1 s2 : MemFs} (h : s1.files = s2.files) (q : FPath) :
    s1.lookup q = s2.lookup q := by
  unfold MemFs.lookup
  rw [h]

theorem path_two_ne_one (r : FPath) (a b c : String) : r ++ [a] ++ [b] ≠ r ++ [c] := by
  intro h
  have h2 := congrArg List.length h
  simp [List.length_append] at h2

theorem root_concat_get_name (p : FPath) (a : String) :
    (Migration.mk (p ++ [a])).get_name = a := by
  unfold Migration.get_name
  simp

theorem state_cond_iff (st0 : MigrationsState) (x : Option String) :
    ((st0.latest.isNone || st0.latest == x) = true) ↔ (st0.latest = none ∨ st0.latest = x) := by
  simp [Option.isNone_iff_eq_none]

theorem mem_save_state_run (ms : Migrations) (st : MigrationsState) (s : MemFs) :
    Migrations.save_state memFilesystem ms st s
      = (.ok (), memWriteState s (ms.root ++ ["state.json"]) (.state st),
         [Event.wroteFile (ms.root ++ ["state.json"]) (.state st)]) := rfl

theorem c3_get_state_step (s sA : MemFs) (ms : Migrations) (st0 : MigrationsState)
    (cur mr p1 p2 p3 : FPath) (d1 d2 d3 : FileData)
    (hfiles : sA.files = s.files)
    (hstate : (ms.get_state memFilesystem s).1 = .ok st0)
    (h1 : p1 ≠ ms.root ++ ["state.json"])
    (h2 : p2 ≠ ms.root ++ ["state.json"])
    (h3 : p3 ≠ ms.root ++ ["state.json"]) :
    ms.get_state memFilesystem
      (memWriteState (memEnsureState (memWriteState (memEnsureState
        (memWriteState (memEnsureState (memEnsureState sA cur) mr) p1 d1) mr) p2 d2) mr) p3 d3)
      = (.ok st0,
         memWriteState (memEnsureState (memWriteState (memEnsureState
           (memWriteState (memEnsureState (memEnsureState sA cur) mr) p1 d1) mr) p2 d2) mr) p3 d3,
         []) ∧
    (memWriteState (memEnsureState (memWriteState (memEnsureState
        (memWriteState (memEnsureState (memEnsureState sA cur) mr) p1 d1) mr) p2 d2) mr) p3 d3).lookup
      (ms.root ++ ["state.json"]) = s.lookup (ms.root ++ ["state.json"]) := by
  have hlk : (memWriteState (memEnsureState (memWriteState (memEnsureState
      (memWriteState (memEnsureState (memEnsureState sA cur) mr) p1 d1) mr) p2 d2) mr) p3 d3).lookup
        (ms.root ++ ["state.json"]) = s.lookup (ms.root ++ ["state.json"]) := by
    rw [mem_lookup_write_ne _ _ h3, mem_lookup_ensure, mem_lookup_write_ne _ _ h2,
        mem_lookup_ensure, mem_lookup_write_ne _ _ h1, mem_lookup_ensure, mem_lookup_ensure]
    exact mem_lookup_eq_of_files hfiles _
  refine ⟨?_, hlk⟩
  have h := mem_get_state_frame ms hlk
  rw [hstate] at h
  exact h

/-- C3 amended: when create_migration succeeds in creating a migration,
state.json is updated to the new name if and only if the previously
stored latest is null or equals the from name supplied by the caller; on
a mismatch with a non null stored latest the state file is left exactly
as it was, while the new migration files still exist (info.json holds
the supplied from name), leaving the new migration an orphan. -/
theorem c3_state_update_condition (s : MemFs) (B : Backend) (name : String)
    (fromM : Option Migration) (ms : Migrations) (m : Migration) (s9 : MemFs)
    (tr : List Event) (st0 : MigrationsState)
    (hstate : (ms.get_state memFilesystem s).1 = .ok st0)
    (hrun : ms.create_migration memFilesystem B name fromM s = (.ok (some m), s9, tr)) :
    s9.lookup (ms.root ++ ["state.json"]) =
      (if st0.latest = none ∨ st0.latest = fromM.map Migration.get_name
       then some (.state { latest := some name })
       else s.lookup (ms.root ++ ["state.json"])) ∧
    s9.lookup (ms.root ++ [name] ++ ["info.json"])
      = some (.info { from_name := fromM.map Migration.get_name }) := by
  unfold Migrations.create_migration at hrun
  try dsimp only at hrun
  rcases hx : (match fromM with
    | none => (M.pure ADB.new : M MemFs ADB)
    | some m0 => m0.get_db memFilesystem) s with ⟨r1, sA, tA⟩
  have hfiles : sA.files = s.files := by
    rcases fromM with _ | m0
    · have h0 : ((M.pure ADB.new : M MemFs ADB)) s = (.ok ADB.new, s, []) := rfl
      dsimp only at hx
      rw [h0] at hx
      have h1 := congrArg (fun z => z.2.1) hx
      dsimp at h1
      rw [← h1]
    · have he0 : memFilesystem.ensure_dir s m0.root = .ok (memEnsureState s m0.root) := rfl
      obtain ⟨r, hr⟩ := get_db_run memFilesystem m0 he0
      dsimp only at hx
      rw [hr] at hx
      have h1 := congrArg (fun z => z.2.1) hx
      dsimp at h1
      rw [← h1]
      rfl
  rcases r1 with e | fdb
  · rw [bind_run_error _ hx] at hrun
    have hc2 := congrArg (fun z => z.1) hrun
    simp at hc2
  · rw [bind_run_ok hx] at hrun
    try dsimp only at hrun
    have heB : memFilesystem.ensure_dir sA (ms.get_current).root
        = .ok (memEnsureState sA (ms.get_current).root) := rfl
    obtain ⟨r2, hr2⟩ := get_db_run memFilesystem (ms.get_current) heB
    rcases r2 with e | tdb
    · rw [bind_run_error _ hr2] at hrun
      have hc2 := congrArg (fun z => z.1) hrun
      simp at hc2
    · rw [bind_run_ok hr2] at hrun
      try dsimp only at hrun
      have hp : (M.pure (diff fdb tdb) : M MemFs (List Operation))
          (memEnsureState sA (ms.get_current).root)
          = (.ok (diff fdb tdb), memEnsureState sA (ms.get_current).root, []) := rfl
      rw [bind_run_ok hp] at hrun
      try dsimp only at hrun
      cases hq : (diff fdb tdb).isEmpty
      · rw [if_neg (by rw [hq]; exact Bool.false_ne_true)] at hrun
        unfold Migration.write_sql Migration.write_info at hrun
        simp only [Migrations.get_migration] at hrun
        rw [bind_write_contents] at hrun
        try dsimp only at hrun
        rw [bind_write_contents] at hrun
        try dsimp only at hrun
        rw [bind_write_contents] at hrun
        try dsimp only at hrun
        obtain ⟨hgs, hlk⟩ := c3_get_state_step s sA ms st0 (ms.get_current).root
          (ms.root ++ [name])
          (ms.root ++ [name] ++ [B.get_name ++ "_up" ++ ".sql"])
          (ms.root ++ [name] ++ [B.get_name ++ "_down" ++ ".sql"])
          (ms.root ++ [name] ++ ["info.json"])
          (FileData.raw (B.create_migration_sql fdb
            (if fromM.isNone = true then diff fdb tdb ++ [Operation.AddTable migrations_table]
             else diff fdb tdb)))
          (FileData.raw (B.create_migration_sql fdb (diff tdb fdb)))
          (FileData.info { from_name := Option.map (fun m0 => m0.get_name) fromM })
          hfiles hstate
          (path_two_ne_one _ _ _ _) (path_two_ne_one _ _ _ _) (path_two_ne_one _ _ _ _)
        rw [bind_run_ok hgs] at hrun
        try dsimp only at hrun
        cases hcond : (st0.latest.isNone || st0.latest == Option.map (fun m0 => m0.get_name) fromM)
        · rw [hcond] at hrun
          rw [if_neg Bool.false_ne_true] at hrun
          have h9 := congrArg (fun z => z.2.1) hrun
          dsimp [M.pure] at h9
          have hPropNeg : ¬(st0.latest = none ∨ st0.latest = Option.map Migration.get_name fromM) := by
            intro hor
            have hb := (state_cond_iff st0 (Option.map (fun m0 => m0.get_name) fromM)).mpr hor
            rw [hcond] at hb
            exact absurd hb Bool.false_ne_true
          rw [← h9]
          constructor
          · rw [if_neg hPropNeg]
            exact hlk
          · exact mem_lookup_write_self _ _ _
        · rw [hcond] at hrun
          rw [if_pos rfl] at hrun
          rw [bind_run_ok (mem_save_state_run ms
            { latest := some (Migration.mk (ms.root ++ [name])).get_name } _)] at hrun
          try dsimp only at hrun
          have h9 := congrArg (fun z => z.2.1) hrun
          dsimp [M.pure] at h9
          have hProp : st0.latest = none ∨ st0.latest = Option.map Migration.get_name fromM :=
            (state_cond_iff st0 (Option.map (fun m0 => m0.get_name) fromM)).mp hcond
          rw [← h9]
          constructor
          · rw [if_pos hProp]
            rw [mem_lookup_write_self]
            rw [root_concat_get_name]
          · rw [mem_lookup_write_ne _ _
              (Ne.symm (path_two_ne_one ms.root name ("info.json") ("state.json")))]
            exact mem_lookup_write_self _ _ _
      · rw [if_pos hq] at hrun
        have hc2 := congrArg (fun z => z.1) hrun
        simp [M.pure] at hc2

/-- Counterexample to C3 as stated: with state.json absent (so the stored
latest is null) and from supplied as migration m0, the stored latest
does not equal the supplied from name, yet create_migration still
updates state.json to the new name instead of leaving the state file
untouched. -/
theorem c3_counterexample :
    (chainRoot.get_state memFilesystem memCurrentB).1 = .ok { latest := none } ∧
    Option.map Migration.get_name (some { root := ["r", "m0"] } : Option Migration)
      = some "m0" ∧
    memCurrentB.lookup ["r", "state.json"] = none ∧
    ((chainRoot.create_migration memFilesystem mockBackend ("m1")
        (some { root := ["r", "m0"] }) memCurrentB).2.1).lookup ["r", "state.json"]
      = some (.state { latest := some "m1" }) :=
  ⟨rfl, rfl, rfl, rfl⟩

/-- Witness for C3 amended: a matching from name (the stored latest m0
equals the supplied from name), so state.json is updated to the new
name and info.json records the from name. -/
theorem c3_state_update_condition_witness :
    ((chainRoot.get_state memFilesystem memTwoSnapshots).1
        = .ok { latest := some "m0" }) ∧
    (({ dirs := [["r", "m1"], ["r", "current"], ["r", "m0"]],
        files := [(["r", "state.json"], .state { latest := some "m1" }),
                  (["r", "m1", "info.json"], .info { from_name := some "m0" }),
                  (["r", "m1", "sqlite_down.sql"], .raw ",t1|;+t1;-t2"),
                  (["r", "m1", "sqlite_up.sql"], .raw ",t1|;+t2;-t1"),
                  (["r", "m0", "t1.table"], .table tblA),
                  (["r", "current", "t2.table"], .table tblB)] } : MemFs).lookup
        (chainRoot.root ++ ["state.json"]) =
      (if ({ latest := some "m0" } : MigrationsState).latest = none ∨
          ({ latest := some "m0" } : MigrationsState).latest
            = Option.map Migration.get_name (some { root := ["r", "m0"] } : Option Migration)
       then some (.state { latest := some "m1" })
       else memTwoSnapshots.lookup (chainRoot.root ++ ["state.json"]))) ∧
    (({ dirs := [["r", "m1"], ["r", "current"], ["r", "m0"]],
        files := [(["r", "state.json"], .state { latest := some "m1" }),
                  (["r", "m1", "info.json"], .info { from_name := some "m0" }),
                  (["r", "m1", "sqlite_down.sql"], .raw ",t1|;+t1;-t2"),
                  (["r", "m1", "sqlite_up.sql"], .raw ",t1|;+t2;-t1"),
                  (["r", "m0", "t1.table"], .table tblA),
                  (["r", "current", "t2.table"], .table tblB)] } : MemFs).lookup
        (chainRoot.root ++ ["m1"] ++ ["info.json"])
      = some (.info { from_name :=
          (Option.map Migration.get_name (some { root := ["r", "m0"] } : Option Migration)) })) :=
  ⟨rfl,
   (c3_state_update_condition memTwoSnapshots mockBackend ("m1")
      (some { root := ["r", "m0"] }) chainRoot { root := ["r", "m1"] }
      { dirs := [["r", "m1"], ["r", "current"], ["r", "m0"]],
        files := [(["r", "state.json"], .state { latest := some "m1" }),
                  (["r", "m1", "info.json"], .info { from_name := some "m0" }),
                  (["r", "m1", "sqlite_down.sql"], .raw ",t1|;+t1;-t2"),
                  (["r", "m1", "sqlite_up.sql"], .raw ",t1|;+t2;-t1"),
                  (["r", "m0", "t1.table"], .table tblA),
                  (["r", "current", "t2.table"], .table tblB)] }
      [Event.ensuredDir ["r", "m0"],
       Event.ensuredDir ["r", "current"],
       Event.ensuredDir ["r", "m1"],
       Event.wroteFile ["r", "m1", "sqlite_up.sql"] (.raw ",t1|;+t2;-t1"),
       Event.ensuredDir ["r", "m1"],
       Event.wroteFile ["r", "m1", "sqlite_down.sql"] (.raw ",t1|;+t1;-t2"),
       Event.ensuredDir ["r", "m1"],
       Event.wroteFile ["r", "m1", "info.json"] (.info { from_name := some "m0" }),
       Event.wroteFile ["r", "state.json"] (.state { latest := some "m1" })]
      { latest := some "m0" } rfl rfl).1,
   (c3_state_update_condition memTwoSnapshots mockBackend ("m1")
      (some { root := ["r", "m0"] }) chainRoot { root := ["r", "m1"] }
      { dirs := [["r", "m1"], ["r", "current"], ["r", "m0"]],
        files := [(["r", "state.json"], .state { latest := some "m1" }),
                  (["r", "m1", "info.json"], .info { from_name := some "m0" }),
                  (["r", "m1", "sqlite_down.sql"], .raw ",t1|;+t1;-t2"),
                  (["r", "m1", "sqlite_up.sql"], .raw ",t1|;+t2;-t1"),
                  (["r", "m0", "t1.table"], .table tblA),
                  (["r", "current", "t2.table"], .table tblB)] }
      [Event.ensuredDir ["r", "m0"],
       Event.ensuredDir ["r", "current"],
       Event.ensuredDir ["r", "m1"],
       Event.wroteFile ["r", "m1", "sqlite_up.sql"] (.raw ",t1|;+t2;-t1"),
       Event.ensuredDir ["r", "m1"],
       Event.wroteFile ["r", "m1", "sqlite_down.sql"] (.raw ",t1|;+t1;-t2"),
       Event.ensuredDir ["r", "m1"],
       Event.wroteFile ["r", "m1", "info.json"] (.info { from_name := some "m0" }),
       Event.wroteFile ["r", "state.json"] (.state { latest := some "m1" })]
      { latest := some "m0" } rfl rfl).2⟩
